import Mathlib

/-!
Verification of the schema-adapter core of django-pydantic-field.

Part A embeds the runtime type universe manipulated by
`django_pydantic_field/compat/django.py` (GenericContainer, DataclassContainer,
BaseContainer) as an inductive `PyVal`, together with a model of Python `==`
over that universe.  Part B embeds the `SchemaAdapter` state machine of
`django_pydantic_field/types.py` and `django_pydantic_field/v2/types.py`
(the Pydantic-v2 code path, `PYDANTIC_V1 = False`), with the stateful
`cached_property` slots made explicit and fallible operations returning
`Except`.  The external validation library (pydantic) is out of scope of the
repository; the few primitives the adapter delegates to are modelled from the
spec and marked as such.
-/

/-- Plain Python literal values: they appear as `Literal` arguments, dataclass
field values, export-kwarg values, and as the payloads validated by the
adapter.  `pynone` is the Python `None` object. -/
inductive PyLit where
  | int (n : Int)
  | str (s : String)
  | bool (b : Bool)
  | pynone
deriving DecidableEq

/-- The universe of Python runtime values relevant to the schema adapter:
type objects, typing aliases, the containers introduced by
`compat/django.py`, and plain data.

* `cls n` - a plain class object (`int`, `str`, `list`, `NoneType`, user classes).
* `special n` - a `typing` special form (`Union`, `Literal`, `Annotated`, ...).
* `lit v` / `pyList xs` / `pyDict kv` - plain values (dicts string-keyed,
  in insertion order, as produced by `dataclasses.asdict`).
* `forwardRef n` - `typing.ForwardRef(n)`; modelled as a single name.
* `galias origin args` - a parameterized generic alias `origin[args]`
  (`list[int]`, `typing.List[int]`, `Union[int, str]`, `Literal[1, 2]`).
  The model does not distinguish `types.GenericAlias` from
  `typing._GenericAlias`, which compare equal in Python.
* `annAlias origin metadata` - `Annotated[origin, *metadata]`.
* `dcInst c fs` - a dataclass instance of class `c` with field values `fs`.
* `genC origin args` - a `GenericContainer`.
* `dcC c kwargs` - a `DataclassContainer`.

`FieldInfo` objects and their `FieldInfoContainer` are outside this universe
(no claim quantifies over them), so the `FieldInfo` branch of
`GenericContainer.wrap` is vacuous here. -/
inductive PyVal where
  | cls (name : String)
  | special (name : String)
  | lit (v : PyLit)
  | pyList (xs : List PyVal)
  | pyDict (kv : List (String × PyVal))
  | forwardRef (name : String)
  | galias (origin : PyVal) (args : List PyVal)
  | annAlias (origin : PyVal) (metadata : List PyVal)
  | dcInst (c : String) (fields : List (String × PyVal))
  | genC (origin : PyVal) (args : List PyVal)
  | dcC (datacls : String) (kwargs : List (String × PyVal))

namespace PyEmbed

open PyVal

mutual
/-- Node-weight measure on `PyVal`, used to size the fuel given to the
fuel-indexed functions below.  `annAlias` weighs like its wrapped container
form (origin plus the implicit `Annotated` form plus one cons cell). -/
def m : PyVal → Nat
  | .cls _ => 1
  | .special _ => 1
  | .lit _ => 1
  | .forwardRef _ => 1
  | .pyList xs => 1 + mList xs
  | .pyDict kv => 1 + mFields kv
  | .galias o args => 1 + m o + mList args
  | .annAlias o ms => 3 + m o + mList ms
  | .dcInst _ fs => 1 + mFields fs
  | .genC o args => 1 + m o + mList args
  | .dcC _ kw => 1 + mFields kw

def mList : List PyVal → Nat
  | [] => 0
  | x :: xs => 1 + m x + mList xs

def mFields : List (String × PyVal) → Nat
  | [] => 0
  | kv :: rest => 1 + m kv.2 + mFields rest
end

mutual
/-- `dataclasses.asdict` deep conversion applied to a single field value:
nested dataclass instances become plain dicts, lists and dicts are converted
recursively, every other value is (deep-)copied unchanged. -/
def asdictVal : PyVal → PyVal
  | .dcInst _ fs => .pyDict (asdictFields fs)
  | .pyList xs => .pyList (asdictList xs)
  | .pyDict kv => .pyDict (asdictFields kv)
  | v => v

def asdictFields : List (String × PyVal) → List (String × PyVal)
  | [] => []
  | kv :: rest => (kv.1, asdictVal kv.2) :: asdictFields rest

def asdictList : List PyVal → List PyVal
  | [] => []
  | x :: xs => asdictVal x :: asdictList xs
end

mutual
/-- `GenericContainer.wrap` from `compat/django.py`: `Annotated` aliases are
wrapped into a container with args `(origin, *metadata)` each wrapped;
other generic aliases into a container of their origin and wrapped args;
dataclass instances are delegated to `DataclassContainer.wrap` (that branch is
inlined here: it stores the class and `dataclasses.asdict` of the instance);
everything else is returned unchanged.  The `FieldInfo` branch of the source
is vacuous over this universe. -/
def GenericContainer.wrap : PyVal → PyVal
  | .annAlias o ms => .genC (.special ("Annotated")) (GenericContainer.wrap o :: wrapList ms)
  | .galias o args => .genC o (wrapList args)
  | .dcInst c fs => .dcC c (asdictFields fs)
  | v => v

def wrapList : List PyVal → List PyVal
  | [] => []
  | x :: xs => GenericContainer.wrap x :: wrapList xs
end

/-- `DataclassContainer.wrap`: dataclass instances are snapshotted as
`(class, asdict(instance))`; generic aliases are delegated to
`GenericContainer.wrap`; everything else passes through. -/
def DataclassContainer.wrap : PyVal → PyVal
  | .dcInst c fs => .dcC c (asdictFields fs)
  | .galias o args => GenericContainer.wrap (.galias o args)
  | .annAlias o ms => GenericContainer.wrap (.annAlias o ms)
  | v => v

/-- `isinstance(value, GenericTypes)`: runtime generic aliases, including
`Annotated` aliases (`_AnnotatedAlias` subclasses `_GenericAlias`). -/
def isGenericType : PyVal → Bool
  | .galias _ _ => true
  | .annAlias _ _ => true
  | _ => false

/-- Subscription `origin[args]` (with `args` passed as a tuple), as used by
`GenericContainer.unwrap`.  `Annotated[...]` with at least two arguments
builds an annotated alias, with fewer it raises `TypeError` and the caller
falls back to `types.GenericAlias(origin, args)`; `Union[(x,)]` collapses to
its single member.  Argument tuples are assumed canonical (as produced by
`typing.get_args`), so no union flattening or deduplication is modelled. -/
def subscript (origin : PyVal) (args : List PyVal) : PyVal :=
  match origin with
  | .special n =>
      if n == "Annotated" then
        match args with
        | o :: m0 :: ms => .annAlias o (m0 :: ms)
        | args => .galias (.special n) args
      else if n == "Union" then
        match args with
        | [x] => x
        | args => .galias (.special n) args
      else .galias (.special n) args
  | o => .galias o args

mutual
/-- `BaseContainer.unwrap` from `compat/django.py` on the Pydantic-v2 path:
it dispatches to the concrete container's own `unwrap`.  A
`GenericContainer` with no args unwraps to its bare origin; with args it
subscripts the origin with the recursively `BaseContainer.unwrap`-ped args
(the subclass dispatch for `GenericContainer` and `DataclassContainer` is
inlined here).  A `DataclassContainer` reconstructs `datacls(**kwargs)`.
Every non-container value passes through unchanged. -/
def BaseContainer.unwrap : PyVal → PyVal
  | .genC origin [] => origin
  | .genC origin (a :: rest) => subscript origin (BaseContainer.unwrapList (a :: rest))
  | .dcC c kw => .dcInst c kw
  | v => v

def BaseContainer.unwrapList : List PyVal → List PyVal
  | [] => []
  | x :: xs => BaseContainer.unwrap x :: BaseContainer.unwrapList xs
end

/-- `GenericContainer.unwrap`: non-`GenericContainer` inputs (including other
containers) are returned unchanged; a `GenericContainer` unwraps exactly as in
`BaseContainer.unwrap`. -/
def GenericContainer.unwrap : PyVal → PyVal
  | .genC o args => BaseContainer.unwrap (.genC o args)
  | v => v

/-- `DataclassContainer.unwrap`: reconstructs `datacls(**kwargs)`. -/
def DataclassContainer.unwrap : PyVal → PyVal
  | .dcC c kw => .dcInst c kw
  | v => v

/-- Number of "wrappable" top constructors of a value: those on which
`GenericContainer.wrap` / `DataclassContainer.wrap` produce a container.  The
cross-constructor branches of Python `==` below strictly decrease
`3 * (m a + m b) + rawTop a + rawTop b`, which bounds the call depth and
therefore the fuel needed by `pyEqF`. -/
def rawTop : PyVal → Nat
  | .galias _ _ => 1
  | .annAlias _ _ => 1
  | .dcInst _ _ => 1
  | _ => 0

mutual
/-- Fuel-indexed model of Python `==` over the universe, mirroring the
`__eq__` chain of the source: structural comparison for same-shaped values
(alias equality compares origin and args; `BaseContainer.__eq__` compares the
`__slots__`; dataclass equality compares class and field tuples; dict
equality is modelled pointwise in insertion order, which coincides with
Python's unordered dict equality on the declaration-ordered dicts arising
here); a `GenericContainer` compared against a live generic alias wraps the
alias first (`GenericContainer.__eq__`, also reached reflectedly); a
`DataclassContainer` compared against a dataclass instance wraps the instance
first (`DataclassContainer.__eq__`); every other mixed pair falls through
`NotImplemented` on both sides to identity, i.e. `False`.  Exhausted fuel
returns `false`; the wrapper `pyEq` supplies sufficient fuel. -/
def pyEqF : Nat → PyVal → PyVal → Bool
  | 0, _, _ => false
  | f + 1, a, b =>
      match a, b with
      | .lit x, .lit y => x == y
      | .cls n, .cls n2 => n == n2
      | .special n, .special n2 => n == n2
      | .forwardRef n, .forwardRef n2 => n == n2
      | .pyList xs, .pyList ys => pyEqListF f xs ys
      | .pyDict kv, .pyDict kv2 => pyEqFieldsF f kv kv2
      | .galias o as, .galias o2 bs => pyEqF f o o2 && pyEqListF f as bs
      | .annAlias o ms, .annAlias o2 ms2 => pyEqF f o o2 && pyEqListF f ms ms2
      | .dcInst c fs, .dcInst c2 fs2 => c == c2 && pyEqFieldsF f fs fs2
      | .genC o as, .genC o2 bs => pyEqF f o o2 && pyEqListF f as bs
      | .dcC c kw, .dcC c2 kw2 => c == c2 && pyEqFieldsF f kw kw2
      | .genC o as, .galias o2 bs => pyEqF f (.genC o as) (GenericContainer.wrap (.galias o2 bs))
      | .genC o as, .annAlias o2 ms => pyEqF f (.genC o as) (GenericContainer.wrap (.annAlias o2 ms))
      | .galias o2 bs, .genC o as => pyEqF f (.genC o as) (GenericContainer.wrap (.galias o2 bs))
      | .annAlias o2 ms, .genC o as => pyEqF f (.genC o as) (GenericContainer.wrap (.annAlias o2 ms))
      | .dcC c kw, .dcInst c2 fs => pyEqF f (.dcC c kw) (DataclassContainer.wrap (.dcInst c2 fs))
      | .dcInst c2 fs, .dcC c kw => pyEqF f (.dcC c kw) (DataclassContainer.wrap (.dcInst c2 fs))
      | _, _ => false

def pyEqListF : Nat → List PyVal → List PyVal → Bool
  | _, [], [] => true
  | f + 1, x :: xs, y :: ys => pyEqF f x y && pyEqListF f xs ys
  | _, _, _ => false

def pyEqFieldsF : Nat → List (String × PyVal) → List (String × PyVal) → Bool
  | _, [], [] => true
  | f + 1, kv :: rest, kv2 :: rest2 =>
      kv.1 == kv2.1 && pyEqF f kv.2 kv2.2 && pyEqFieldsF f rest rest2
  | _, _, _ => false
end

/-- Python `==` over the universe: `pyEqF` run with enough fuel. -/
def pyEq (a b : PyVal) : Bool :=
  pyEqF (3 * (m a + m b) + rawTop a + rawTop b + 1) a b

mutual
/-- No dataclass instance occurs anywhere inside the value; on such values
`asdictVal` is the identity. -/
def dcFree : PyVal → Bool
  | .dcInst _ _ => false
  | .pyList xs => dcFreeList xs
  | .pyDict kv => dcFreeFields kv
  | .galias o args => dcFree o && dcFreeList args
  | .annAlias o ms => dcFree o && dcFreeList ms
  | .genC o args => dcFree o && dcFreeList args
  | .dcC _ kw => dcFreeFields kw
  | _ => true

def dcFreeList : List PyVal → Bool
  | [] => true
  | x :: xs => dcFree x && dcFreeList xs

def dcFreeFields : List (String × PyVal) → Bool
  | [] => true
  | kv :: rest => dcFree kv.2 && dcFreeFields rest
end

/-- Origins whose subscription with a canonical non-empty argument tuple
reconstructs the same alias: plain classes, and special forms other than
`Annotated` (whose subscription builds an `annAlias` instead), where a
`Union` must keep at least two members to avoid the singleton collapse. -/
def originOk : PyVal → List PyVal → Bool
  | .cls _, _ => true
  | .special n, args => n != "Annotated" && (n != "Union" || decide (2 ≤ args.length))
  | _, _ => false

mutual
/-- The supported generic/parameterized types of the round-trip claim: plain
classes and special forms, literal values, forward references, parameterized
aliases over subscriptable origins with a non-empty canonical argument tuple,
annotated types with non-empty metadata, and dataclass instances whose field
values contain no nested dataclass instances (on which `dataclasses.asdict`
is the identity).  Containers and plain collections are not type
expressions. -/
def Supported : PyVal → Bool
  | .cls _ => true
  | .special _ => true
  | .lit _ => true
  | .forwardRef _ => true
  | .galias o args => originOk o args && !args.isEmpty && SupportedList args
  | .annAlias o ms => !ms.isEmpty && Supported o && SupportedList ms
  | .dcInst _ fs => dcFreeFields fs
  | _ => false

def SupportedList : List PyVal → Bool
  | [] => true
  | x :: xs => Supported x && SupportedList xs
end

end PyEmbed

namespace PyEmbed

/-- Export-option mappings (Python `dict[str, Any]`), modelled as
insertion-ordered association lists with unique keys. -/
abbrev Kw : Type := List (String × PyVal)

/-- `dict.get(key, None)`. -/
def lookupKw (kw : Kw) (k : String) : Option PyVal :=
  match kw with
  | [] => none
  | kv :: rest => if kv.1 == k then some kv.2 else lookupKw rest k

/-- `dict.pop(key, default)` viewed as the resulting mapping. -/
def popKw (kw : Kw) (k : String) : Kw :=
  List.filter (fun kv => kv.1 != k) kw

/-- `collections.ChainMap` lookup over a list of mappings. -/
def chainLookup (maps : List Kw) (k : String) : Option PyVal :=
  match maps with
  | [] => none
  | kw :: rest =>
      match lookupKw kw k with
      | some v => some v
      | none => chainLookup rest k

/-- Python `==` on optional values where Python `None` compares equal only
to itself. -/
def optPyEq : Option PyVal → Option PyVal → Bool
  | none, none => true
  | some a, some b => pyEq a b
  | _, _ => false

/-- Python dict equality on the induced key-to-value maps (unordered, values
compared with Python `==`). -/
def kwEqB (a b : Kw) : Bool :=
  List.all a (fun kv => optPyEq (lookupKw a kv.1) (lookupKw b kv.1)) &&
  List.all b (fun kv => optPyEq (lookupKw a kv.1) (lookupKw b kv.1))

/-- Errors surfaced by the adapter: the named configuration error
`ImproperlyConfiguredSchema` from `django_pydantic_field/types.py`, the
`NameError` raised by forward-reference evaluation, and the validation
error raised by the external validator. -/
inductive PyErr where
  | improperlyConfigured (msg : String)
  | nameError (nm : String)
  | validationError
deriving DecidableEq

/-- The `args` message carried by an exception, as used by
`validate_schema` when re-wrapping a foreign exception. -/
def PyErr.argsMsg : PyErr → String
  | .improperlyConfigured s => s
  | .nameError n => n
  | .validationError => "validation error"

/-- An owning Python class: its raw `__annotations__` (string annotations
appear as `lit (.str n)`), its own class namespace `vars(cls)`, and its
defining module's globals. -/
structure PyClass where
  name : String
  annots : List (String × PyVal)
  localNs : List (String × PyVal)
  moduleNs : List (String × PyVal)

/-- `get_annotated_type(obj, field, default=None)` from
`_internal/_annotation_utils.py`: returns the raw annotation without
evaluating it; missing owner or missing key yields the default `None`. -/
def get_annotated_type (obj : Option PyClass) (field : String) : Option PyVal :=
  match obj with
  | some c => lookupKw c.annots field
  | none => none

/-- `get_namespace(cls)`: `ChainMap(vars(cls), module globals)`, local
bindings taking precedence; a `None` owner yields the empty namespace (both
component lookups fail and are defaulted to empty dicts in the source). -/
def get_namespace (cls : Option PyClass) : List (String × PyVal) :=
  match cls with
  | some c => c.localNs ++ c.moduleNs
  | none => []

/-- `evaluate_forward_ref(ref, ns)`: modelled as a single-name lookup in the
namespace, raising `NameError` when the symbol is absent.  Evaluation of
compound forward-reference expressions is outside the modelled universe;
references nested inside generic arguments are resolved through the
container recursion below, as in the source. -/
def evaluate_forward_ref (n : String) (ns : List (String × PyVal)) : Except PyErr PyVal :=
  match lookupKw ns n with
  | some v => .ok v
  | none => .error (.nameError n)

mutual
/-- `_resolve_schema_forward_ref` from `django_pydantic_field/types.py`,
fuel-indexed (the recursion descends through `GenericContainer.wrap` of the
input, which is not structurally smaller): a forward reference is evaluated
against the owner's merged namespace; otherwise the value is wrapped, and if
that produces a `GenericContainer` its origin and each (wrapped) argument
are resolved recursively and the result is unwrapped again; any other value
is returned unchanged.  Exhausted fuel returns the value unchanged; the
wrapper supplies fuel exceeding the recursion depth. -/
def resolveForwardRefF : Nat → Option PyClass → PyVal → Except PyErr PyVal
  | 0, _, s => .ok s
  | f + 1, pt, s =>
      match s with
      | .forwardRef n => evaluate_forward_ref n (get_namespace pt)
      | s =>
          match GenericContainer.wrap s with
          | .genC o args => do
              let o2 ← resolveForwardRefF f pt o
              let args2 ← resolveListF f pt args
              pure (GenericContainer.unwrap (.genC o2 args2))
          | _ => .ok s

def resolveListF : Nat → Option PyClass → List PyVal → Except PyErr (List PyVal)
  | 0, _, xs => .ok xs
  | _ + 1, _, [] => .ok []
  | f + 1, pt, x :: xs => do
      let y ← resolveForwardRefF f pt x
      let ys ← resolveListF f pt xs
      pure (y :: ys)
end

/-- `_resolve_schema_forward_ref` with sufficient fuel for the universe. -/
def resolveSchemaForwardRef (pt : Option PyClass) (s : PyVal) : Except PyErr PyVal :=
  resolveForwardRefF (2 * m s + 2) pt s

/-- A string schema is promoted to a forward reference
(`isinstance(schema, str)` step of `_prepare_schema`). -/
def strAsForwardRef : PyVal → PyVal
  | .lit (.str n) => .forwardRef n
  | v => v

/-- Detects the Python `None` object in a resolution result (`if schema is
None` check after resolution). -/
def noneFilter : PyVal → Option PyVal
  | .lit .pynone => none
  | v => some v

/-- `ty.Optional[s]` as evaluated by `typing`: an existing union gains a
`NoneType` member unless it already has one; `NoneType` itself is
idempotent; any other type becomes `Union[s, NoneType]`. -/
def isNoneType : PyVal → Bool
  | .cls ("NoneType") => true
  | _ => false

def optionalWrap : PyVal → PyVal
  | .galias (.special ("Union")) args =>
      if List.any args isNoneType then .galias (.special ("Union")) args
      else .galias (.special ("Union")) (args ++ [.cls ("NoneType")])
  | .cls ("NoneType") => .cls ("NoneType")
  | s => .galias (.special ("Union")) [s, .cls ("NoneType")]

/-- The underlying `pydantic.TypeAdapter(schema, config=config)`: an
external-library object; only its construction inputs are modelled. -/
structure TypeAdapterM where
  taSchema : PyVal
  taConfig : Option PyVal

/-- The schema adapter state (`BaseSchemaAdapter` of
`django_pydantic_field/types.py` together with the v2 `SchemaAdapter` of
`django_pydantic_field/v2/types.py`): the raw schema spec (`none` is Python
`None`), configuration, binding fields, null policy and export kwargs, plus
the two `cached_property` slots (`prepared_schema` on the base class,
`type_adapter` on the v2 subclass) made explicit. -/
structure SchemaAdapter where
  schema : Option PyVal
  config : Option PyVal
  parent_type : Option PyClass
  attname : Option String
  allow_null : Option Bool
  export_kwargs : Kw
  cachePrepared : Option PyVal
  cacheTypeAdapter : Option TypeAdapterM

/-- `__init__`: stores `BaseContainer.unwrap(schema)` (eagerly unwrapping a
container-wrapped schema spec) and the remaining construction arguments;
both caches start empty. -/
def SchemaAdapter.init (schema : Option PyVal) (config : Option PyVal)
    (parentType : Option PyClass) (attnm : Option String)
    (allowNull : Option Bool) (exportKwargs : Kw) : SchemaAdapter :=
  { schema := Option.map BaseContainer.unwrap schema
    config := config
    parent_type := parentType
    attname := attnm
    allow_null := allowNull
    export_kwargs := exportKwargs
    cachePrepared := none
    cacheTypeAdapter := none }

/-- `from_type(schema, config, **kwargs)`: unbound constructor. -/
def SchemaAdapter.from_type (schema : PyVal) (config : Option PyVal) (kwargs : Kw) : SchemaAdapter :=
  SchemaAdapter.init (some schema) config none none none kwargs

/-- `from_annotation(parent_type, attname, config, **kwargs)`: bound
constructor with no explicit schema. -/
def SchemaAdapter.from_annotation (parentType : PyClass) (attnm : String)
    (config : Option PyVal) (kwargs : Kw) : SchemaAdapter :=
  SchemaAdapter.init none config (some parentType) (some attnm) none kwargs

/-- `is_bound`: both binding fields are set. -/
def SchemaAdapter.is_bound (a : SchemaAdapter) : Bool :=
  a.parent_type.isSome && a.attname.isSome

/-- `bind(parent_type, attname)` (base `bind` plus the v2 override): sets the
binding fields and drops both cached properties from `__dict__`. -/
def SchemaAdapter.bind (a : SchemaAdapter) (pt : Option PyClass) (an : Option String) : SchemaAdapter :=
  { a with
    parent_type := pt
    attname := an
    cachePrepared := none
    cacheTypeAdapter := none }

/-- `_prepare_schema` of the base adapter: fall back to the owner's raw
annotation when no explicit schema is given and the adapter is bound;
promote a string to a forward reference; resolve forward references;
a still-missing schema raises `ImproperlyConfiguredSchema` naming the
binding state.  (The current-tree base class performs no null-wrapping
here.) -/
def SchemaAdapter.prepare_schema (a : SchemaAdapter) : Except PyErr PyVal :=
  let s0 := if a.schema.isNone && a.is_bound
            then get_annotated_type a.parent_type (a.attname.getD (""))
            else a.schema
  let s1 := Option.map strAsForwardRef s0
  let res : Except PyErr (Option PyVal) :=
    match s1 with
    | none => .ok none
    | some s => (resolveSchemaForwardRef a.parent_type s).map noneFilter
  match res with
  | .error e => .error e
  | .ok none =>
      .error (.improperlyConfigured
        (if a.is_bound then "Annotation is not provided"
         else "Cannot resolve the schema. The adapter is accessed before it was bound."))
  | .ok (some s) => .ok s

/-- The value produced by accessing the `prepared_schema` cached property:
the cached value if present, else a fresh `_prepare_schema` run. -/
def SchemaAdapter.prepared_value (a : SchemaAdapter) : Except PyErr PyVal :=
  match a.cachePrepared with
  | some s => .ok s
  | none => a.prepare_schema

/-- Accessing the `prepared_schema` cached property, with the memoization
made explicit: a successful fresh computation is stored in the cache slot
(exceptions are not cached by `cached_property`). -/
def SchemaAdapter.prepared_schema (a : SchemaAdapter) : Except PyErr (PyVal × SchemaAdapter) :=
  match a.cachePrepared with
  | some s => .ok (s, a)
  | none =>
      match a.prepare_schema with
      | .error e => .error e
      | .ok s => .ok (s, { a with cachePrepared := some s })

/-- `validate_schema`: forces a fresh `_prepare_schema` run and re-wraps any
non-`ImproperlyConfiguredSchema` failure into `ImproperlyConfiguredSchema`
carrying the original args. -/
def SchemaAdapter.validate_schema (a : SchemaAdapter) : Except PyErr Unit :=
  match a.prepare_schema with
  | .ok _ => .ok ()
  | .error (.improperlyConfigured s) => .error (.improperlyConfigured s)
  | .error e => .error (.improperlyConfigured e.argsMsg)

/-- `type_adapter` cached property of the v2 adapter: builds
`pydantic.TypeAdapter` over the prepared schema, wrapping it as
`Optional` when `allow_null` is truthy. -/
def SchemaAdapter.type_adapter (a : SchemaAdapter) : Except PyErr (TypeAdapterM × SchemaAdapter) :=
  match a.cacheTypeAdapter with
  | some t => .ok (t, a)
  | none =>
      match a.prepared_schema with
      | .error e => .error e
      | .ok (s, a1) =>
          let s2 := if a.allow_null == some true then optionalWrap s else s
          let t : TypeAdapterM := { taSchema := s2, taConfig := a.config }
          .ok (t, { a1 with cacheTypeAdapter := some t })

/-- Truthiness of an optional Python value, as used for keyword arguments
such as `strict` (absent and `None` and `False` are falsy). -/
def truthyOpt : Option PyVal → Bool
  | some (.lit (.bool b)) => b
  | some (.lit .pynone) => false
  | some (.lit (.int n)) => n != 0
  | some (.lit (.str s)) => s != ""
  | some _ => true
  | none => false

mutual
/-- Modelled from the spec: the external validator contract (section 6).
Strict-mode conformance of a value to a resolved schema, fuel-indexed, over
a small fragment sufficient for the adapter-level claims: primitive classes,
unions (a member must accept the value), and homogeneous lists.  Fuel is
consumed on every step; the wrapper supplies enough. -/
def strictConformsF : Nat → PyVal → PyVal → Bool
  | 0, _, _ => false
  | f + 1, schema, v =>
      match schema, v with
      | .cls ("int"), .lit (.int _) => true
      | .cls ("str"), .lit (.str _) => true
      | .cls ("bool"), .lit (.bool _) => true
      | .cls ("NoneType"), .lit .pynone => true
      | .galias (.special ("Union")) args, v => anyConformsF f args v
      | .galias (.cls ("list")) [t], .pyList xs => allConformsF f t xs
      | _, _ => false

def anyConformsF : Nat → List PyVal → PyVal → Bool
  | 0, _, _ => false
  | _ + 1, [], _ => false
  | f + 1, s :: rest, v => strictConformsF f s v || anyConformsF f rest v

def allConformsF : Nat → PyVal → List PyVal → Bool
  | 0, _, _ => false
  | _ + 1, _, [] => true
  | f + 1, t, x :: xs => strictConformsF f t x && allConformsF f t xs
end

/-- Strict conformance with sufficient fuel. -/
def strictConforms (schema v : PyVal) : Bool :=
  strictConformsF (m schema + m v + 1) schema v

/-- Modelled from the spec: decimal-digit parsing used by the lax coercion
below (an executable stand-in for str-to-int conversion; signs are not
modelled). -/
def decDigitsAux : List Char → Nat → Option Nat
  | [], acc => some acc
  | c :: rest, acc =>
      if c.isDigit then decDigitsAux rest (acc * 10 + (c.toNat - 48)) else none

def strToIntModel (s : String) : Option Int :=
  match s.data with
  | [] => none
  | cs => Option.map (fun n => (n : Int)) (decDigitsAux cs 0)

/-- Modelled from the spec: lax-mode coercion of the external validator over
the same fragment (string-to-int parsing for the witnesses; everything else
is rejected). -/
def laxCoerce (schema v : PyVal) : Option PyVal :=
  match v with
  | .lit (.str s) =>
      match schema with
      | .cls ("int") => Option.map (fun n => .lit (.int n)) (strToIntModel s)
      | _ => none
  | _ => none

/-- Modelled from the spec: `TypeAdapter.validate_python(value, strict=...,
from_attributes=...)`.  A strictly conforming value is returned unchanged;
otherwise a falsy `strict` permits lax coercion; anything else raises the
validation error.  `from_attributes` concerns attribute-based population of
model instances, which has no counterpart in this value universe, so it is
accepted and ignored. -/
def pdValidatePython (schema value : PyVal) (strict _fromAttributes : Option PyVal) : Except PyErr PyVal :=
  if strictConforms schema value then .ok value
  else if truthyOpt strict then .error .validationError
  else
    match laxCoerce schema value with
    | some v => .ok v
    | none => .error .validationError

/-- Modelled from the spec: `TypeAdapter.validate_json(data, strict=...)`;
the JSON payload is modelled by its parsed value. -/
def pdValidateJson (schema value : PyVal) (strict : Option PyVal) : Except PyErr PyVal :=
  pdValidatePython schema value strict none

/-- `validate_python` of the v2 adapter: an unspecified `strict` or
`from_attributes` falls back to the adapter's stored export kwargs
(`self.export_kwargs.get(..., None)`), then the underlying type adapter is
consulted (resolving the schema if needed, with its cache updates made
explicit in the returned state). -/
def SchemaAdapter.validate_python (a : SchemaAdapter) (value : PyVal)
    (strict fromAttributes : Option PyVal) : Except PyErr (PyVal × SchemaAdapter) :=
  let strict2 := match strict with
    | none => lookupKw a.export_kwargs ("strict")
    | s => s
  let fromAttributes2 := match fromAttributes with
    | none => lookupKw a.export_kwargs ("from_attributes")
    | s => s
  match a.type_adapter with
  | .error e => .error e
  | .ok (t, a1) => (pdValidatePython t.taSchema value strict2 fromAttributes2).map (fun v => (v, a1))

/-- `validate_json` of the v2 adapter: unspecified `strict` falls back to the
stored export kwargs. -/
def SchemaAdapter.validate_json (a : SchemaAdapter) (value : PyVal)
    (strict : Option PyVal) : Except PyErr (PyVal × SchemaAdapter) :=
  let strict2 := match strict with
    | none => lookupKw a.export_kwargs ("strict")
    | s => s
  match a.type_adapter with
  | .error e => .error e
  | .ok (t, a1) => (pdValidateJson t.taSchema value strict2).map (fun v => (v, a1))

/-- `_dump_python_kwargs`: a copy of the stored export kwargs with `strict`
and `from_attributes` popped.  (A `cached_property` in the source; as the
stored kwargs are never mutated, it is modelled as the pure function of
them.) -/
def SchemaAdapter.dump_python_kwargs (a : SchemaAdapter) : Kw :=
  popKw (popKw a.export_kwargs ("strict")) ("from_attributes")

/-- The `ChainMap` of keyword mappings passed to `TypeAdapter.dump_python`
by the current-tree `dump_python`: call-site overrides, then the stored dump
kwargs, then a `mode="json"` default. -/
def SchemaAdapter.dump_python_chain (a : SchemaAdapter) (overrides : Kw) : List Kw :=
  [overrides, a.dump_python_kwargs, [(("mode"), .lit (.str ("json")))]]

/-- The `ChainMap` passed to `TypeAdapter.dump_json`: overrides, then the
stored dump kwargs. -/
def SchemaAdapter.dump_json_chain (a : SchemaAdapter) (overrides : Kw) : List Kw :=
  [overrides, a.dump_python_kwargs]

/-- Modelled from the spec: the external serialization primitive.  Only the
keyword plumbing is subject to the claims, so the dumped payload is the value
itself. -/
def pdDump (_schema : PyVal) (value : PyVal) (_kwargs : List Kw) : PyVal := value

/-- `dump_python` of the v2 adapter: resolves the type adapter and delegates
with the merged keyword chain (overrides win over stored kwargs, with the
`mode="json"` fallback).  The chain is returned alongside the payload so the
effective keyword set is observable. -/
def SchemaAdapter.dump_python (a : SchemaAdapter) (value : PyVal) (overrides : Kw) :
    Except PyErr ((PyVal × List Kw) × SchemaAdapter) :=
  match a.type_adapter with
  | .error e => .error e
  | .ok (t, a1) =>
      let chain := a.dump_python_chain overrides
      .ok ((pdDump t.taSchema value chain, chain), a1)

/-- `dump_json` of the v2 adapter: as `dump_python` but without the
`mode` default. -/
def SchemaAdapter.dump_json (a : SchemaAdapter) (value : PyVal) (overrides : Kw) :
    Except PyErr ((PyVal × List Kw) × SchemaAdapter) :=
  match a.type_adapter with
  | .error e => .error e
  | .ok (t, a1) =>
      let chain := a.dump_json_chain overrides
      .ok ((pdDump t.taSchema value chain, chain), a1)

/-- Modelled from the spec: `TypeAdapter.get_default_value()` returns a
`Some`-wrapper around the declared default, or Python `None` when the schema
declares no default (section 6: dumped defaults are distinguishable from
absence).  A declared default is modelled as an `Annotated` schema whose
metadata carries a field marker with a `default` kwarg. -/
def firstFieldDefault : List PyVal → Option PyVal
  | [] => none
  | .dcInst ("Field") fs :: rest =>
      match lookupKw fs ("default") with
      | some v => some v
      | none => firstFieldDefault rest
  | _ :: rest => firstFieldDefault rest

def pdGetDefaultValue : PyVal → Option PyVal
  | .annAlias _ ms => firstFieldDefault ms
  | _ => none

/-- `get_default_value` of the v2 adapter: unwraps the `Some`-wrapper when
present (its payload may itself be Python `None`), else returns Python
`None`. -/
def SchemaAdapter.get_default_value (a : SchemaAdapter) : Except PyErr (PyVal × SchemaAdapter) :=
  match a.type_adapter with
  | .error e => .error e
  | .ok (t, a1) =>
      match pdGetDefaultValue t.taSchema with
      | some v => .ok (v, a1)
      | none => .ok (.lit .pynone, a1)

/-- `__eq__` of the base adapter, on two adapters of the same class.  The
compared field lists start as `[attname, export_kwargs]`; the try block
appends `self.prepared_schema` and then `other.prepared_schema`; an
`ImproperlyConfiguredSchema` from either lands in the except branch, which
returns unequal when both are bound, and otherwise extends both lists with
the raw `(schema, config, allow_null)` triples - note that when only
`other` failed, `self`'s list already holds its prepared schema, so the two
lists have different lengths and compare unequal regardless of the raw
fields.  Any other exception (e.g. a `NameError` from forward-reference
evaluation) is not caught and propagates out of the comparison. -/
def SchemaAdapter.eq (a b : SchemaAdapter) : Except PyErr Bool :=
  let base := a.attname == b.attname && kwEqB a.export_kwargs b.export_kwargs
  match a.prepared_value with
  | .ok sa =>
      match b.prepared_value with
      | .ok sb => .ok (base && pyEq sa sb)
      | .error (.improperlyConfigured _) => .ok false
      | .error e => .error e
  | .error (.improperlyConfigured _) =>
      if a.is_bound && b.is_bound then .ok false
      else .ok (base && optPyEq a.schema b.schema && optPyEq a.config b.config
                  && (a.allow_null == b.allow_null))
  | .error e => .error e

/-- `_prepare_schema` of the legacy v2 adapter
(`django_pydantic_field/v2/types.py` in the pre-restructuring tree): the
same preparation, but with the null-wrap applied inside `_prepare_schema`
itself, so there the memoized prepared schema is the nullable wrapping. -/
def LegacyV2.prepare_schema (a : SchemaAdapter) : Except PyErr PyVal :=
  (SchemaAdapter.prepare_schema a).map
    (fun s => if a.allow_null == some true then optionalWrap s else s)

/-- The recognized export-kwarg keys: `ExportKwargs.__annotations__` of the
v2 adapter. -/
def exportKwargKeys : List String :=
  ["strict", "from_attributes", "mode", "include", "exclude", "by_alias",
   "exclude_unset", "exclude_defaults", "exclude_none", "round_trip", "warnings"]

/-- The deprecated Pydantic-v1-only keys stripped (with a deprecation
warning) by `truncate_deprecated_v1_export_kwargs` on the v2 path. -/
def deprecatedV1Keys : List String :=
  ["allow_nan", "indent", "separators", "skipkeys", "sort_keys"]

/-- `truncate_deprecated_v1_export_kwargs` from `compat/deprecation.py`
(`PYDANTIC_V1 = False`): pops every deprecated key; the emitted warning is
not modelled. -/
def truncate_deprecated_v1_export_kwargs (kwargs : Kw) : Kw :=
  List.foldl popKw kwargs deprecatedV1Keys

/-- `extract_export_kwargs` of the current-tree v2 adapter: first strips the
deprecated v1 keys, then pops the keys in `kwargs.keys() &
ExportKwargs.__annotations__.keys()`.  Python mutates the mapping in place;
the model returns the pair (extracted export kwargs, remaining mapping).
The set-ordered pop builds the same mapping as this order-preserving
filter. -/
def SchemaAdapter.extract_export_kwargs (kwargs : Kw) : Kw × Kw :=
  let t := truncate_deprecated_v1_export_kwargs kwargs
  (List.filter (fun kv => List.contains exportKwargKeys kv.1) t,
   List.filter (fun kv => !List.contains exportKwargKeys kv.1) t)

/-- Convenience: success test of an `Except` result. -/
def exceptOk : Except PyErr (PyVal × SchemaAdapter) → Bool
  | .ok _ => true
  | .error _ => false

/-- The first projection of a stateful adapter result, for statements that
compare resolved values across different cache states. -/
def exceptFst : Except PyErr (PyVal × SchemaAdapter) → Except PyErr PyVal
  | .ok p => .ok p.1
  | .error e => .error e

/-- Call-site override falling back to a stored kwarg, as performed by
`validate_python` and `validate_json`. -/
def optOr (x y : Option PyVal) : Option PyVal :=
  match x with
  | none => y
  | s => s

end PyEmbed

namespace PyEmbed

open PyVal

def ownerOne : PyClass :=
  { name := "OwnerOne", annots := [("f", .cls ("int"))], localNs := [], moduleNs := [] }

def ownerTwo : PyClass :=
  { name := "OwnerTwo", annots := [("f", .cls ("str"))], localNs := [], moduleNs := [] }

def adapterOne : SchemaAdapter :=
  SchemaAdapter.from_annotation ownerOne ("f") none []

def adapterOneCached : SchemaAdapter :=
  { adapterOne with cachePrepared := some (.cls ("int")) }

def moduleEarly : PyClass :=
  { name := "ModuleCls", annots := [("f", .lit (.str ("Later")))],
    localNs := [], moduleNs := [] }

def moduleLate : PyClass :=
  { name := "ModuleCls", annots := [("f", .lit (.str ("Later")))],
    localNs := [], moduleNs := [("Later", .cls ("int"))] }

def adapterBlank : SchemaAdapter :=
  SchemaAdapter.init none none none none none []

def kwargsExample : Kw :=
  [(("strict"), .lit (.bool true)), (("by_alias"), .lit (.bool false)),
   (("unrelated_flag"), .lit (.int 1))]

def adapterNullInt : SchemaAdapter :=
  SchemaAdapter.init (some (.cls ("int"))) none none none (some true) []

def adapterStrictFalse : SchemaAdapter :=
  SchemaAdapter.from_type (.cls ("int")) none [(("strict"), .lit (.bool false))]

def tInt : TypeAdapterM := { taSchema := .cls ("int"), taConfig := none }

def aStrictCached : SchemaAdapter :=
  { adapterStrictFalse with cachePrepared := some (.cls ("int")), cacheTypeAdapter := some tInt }

def adapterPlainInt : SchemaAdapter :=
  SchemaAdapter.from_type (.cls ("int")) none []

def aPlainIntCached : SchemaAdapter :=
  { adapterPlainInt with cachePrepared := some (.cls ("int")), cacheTypeAdapter := some tInt }

def ownerC8 : PyClass :=
  { name := "OwnerC8", annots := [("f", .cls ("int"))], localNs := [], moduleNs := [] }

def adapterC8Bound : SchemaAdapter :=
  SchemaAdapter.init none none (some ownerC8) (some ("f")) none []

def adapterC8Unbound : SchemaAdapter :=
  SchemaAdapter.init none none none (some ("f")) none []

def schemaNoneDefault : PyVal :=
  .annAlias (.cls ("int")) [.dcInst ("Field") [(("default"), .lit .pynone)]]

def adapterNoneDefault : SchemaAdapter :=
  SchemaAdapter.from_type schemaNoneDefault none []

def tNoneDefault : TypeAdapterM := { taSchema := schemaNoneDefault, taConfig := none }

def aNoneDefaultCached : SchemaAdapter :=
  { adapterNoneDefault with
    cachePrepared := some schemaNoneDefault, cacheTypeAdapter := some tNoneDefault }

theorem m_pos : ∀ v, 1 ≤ m v := by
  intro v
  cases v <;> simp [m] <;> omega

theorem mList_ge_length : ∀ xs : List PyVal, xs.length ≤ mList xs := by
  intro xs
  induction xs with
  | nil => simp [mList]
  | cons x xs ih =>
      simp only [mList, List.length_cons]
      have := m_pos x
      omega

mutual
theorem asdictVal_dcFree : ∀ v, dcFree v = true → asdictVal v = v
  | .cls _, _ => rfl
  | .special _, _ => rfl
  | .lit _, _ => rfl
  | .forwardRef _, _ => rfl
  | .pyList xs, h => by
      simp only [dcFree] at h
      simp [asdictVal, asdictList_dcFree xs h]
  | .pyDict kv, h => by
      simp only [dcFree] at h
      simp [asdictVal, asdictFields_dcFree kv h]
  | .galias _ _, _ => rfl
  | .annAlias _ _, _ => rfl
  | .dcInst _ _, h => by simp [dcFree] at h
  | .genC _ _, _ => rfl
  | .dcC _ _, _ => rfl

theorem asdictFields_dcFree : ∀ fs, dcFreeFields fs = true → asdictFields fs = fs
  | [], _ => rfl
  | kv :: rest, h => by
      simp only [dcFreeFields, Bool.and_eq_true] at h
      simp [asdictFields, asdictVal_dcFree kv.2 h.1, asdictFields_dcFree rest h.2]

theorem asdictList_dcFree : ∀ xs, dcFreeList xs = true → asdictList xs = xs
  | [], _ => rfl
  | x :: xs, h => by
      simp only [dcFreeList, Bool.and_eq_true] at h
      simp [asdictList, asdictVal_dcFree x h.1, asdictList_dcFree xs h.2]
end

theorem pyEqF_refl : ∀ f,
    (∀ v, m v < f → pyEqF f v v = true)
    ∧ (∀ xs, mList xs < f → pyEqListF f xs xs = true)
    ∧ (∀ kvs, mFields kvs < f → pyEqFieldsF f kvs kvs = true) := by
  intro f
  induction f with
  | zero =>
      refine ⟨fun v h => ?_, fun xs h => ?_, fun kvs h => ?_⟩ <;> omega
  | succ f ih =>
      refine ⟨fun v h => ?_, fun xs h => ?_, fun kvs h => ?_⟩
      · cases v with
        | cls n => simp [pyEqF]
        | special n => simp [pyEqF]
        | lit x => simp [pyEqF]
        | forwardRef n => simp [pyEqF]
        | pyList xs =>
            simp only [m] at h
            simpa [pyEqF] using ih.2.1 xs (by omega)
        | pyDict kv =>
            simp only [m] at h
            simpa [pyEqF] using ih.2.2 kv (by omega)
        | galias o args =>
            simp only [m] at h
            simp [pyEqF, ih.1 o (by omega), ih.2.1 args (by omega)]
        | annAlias o ms =>
            simp only [m] at h
            simp [pyEqF, ih.1 o (by omega), ih.2.1 ms (by omega)]
        | dcInst c fs =>
            simp only [m] at h
            simp [pyEqF, ih.2.2 fs (by omega)]
        | genC o args =>
            simp only [m] at h
            simp [pyEqF, ih.1 o (by omega), ih.2.1 args (by omega)]
        | dcC c kw =>
            simp only [m] at h
            simp [pyEqF, ih.2.2 kw (by omega)]
      · cases xs with
        | nil => simp [pyEqListF]
        | cons x xs =>
            simp only [mList] at h
            simp [pyEqListF, ih.1 x (by omega), ih.2.1 xs (by omega)]
      · cases kvs with
        | nil => simp [pyEqFieldsF]
        | cons kv rest =>
            simp only [mFields] at h
            simp [pyEqFieldsF, ih.1 kv.2 (by omega), ih.2.2 rest (by omega)]

theorem pyEq_refl (v : PyVal) : pyEq v v = true := by
  have hm := m_pos v
  show pyEqF (3 * (m v + m v) + rawTop v + rawTop v + 1) v v = true
  exact (pyEqF_refl _).1 v (by omega)

theorem optPyEq_refl (x : Option PyVal) : optPyEq x x = true := by
  cases x with
  | none => rfl
  | some v => simpa [optPyEq] using pyEq_refl v

theorem kwEqB_refl (kw : Kw) : kwEqB kw kw = true := by
  simp only [kwEqB, Bool.and_eq_true, List.all_eq_true]
  exact ⟨fun kv _ => optPyEq_refl _, fun kv _ => optPyEq_refl _⟩

theorem subscript_originOk : ∀ o args, originOk o args = true → subscript o args = .galias o args := by
  intro o args h
  cases o with
  | cls n => simp [subscript]
  | special n =>
      simp only [originOk, Bool.and_eq_true, Bool.or_eq_true, bne_iff_ne, ne_eq,
        decide_eq_true_eq] at h
      obtain ⟨hAnn, hUn⟩ := h
      simp only [subscript]
      rw [if_neg (by simpa using hAnn)]
      by_cases hU : (n == "Union") = true
      · rw [if_pos hU]
        have hn : n = "Union" := by simpa using hU
        subst hn
        rcases hUn with hc | hlen
        · exact absurd rfl hc
        · match args, hlen with
          | x :: y :: rest, _ => rfl
      · rw [if_neg hU]
  | lit v => simp [originOk] at h
  | pyList xs => simp [originOk] at h
  | pyDict kv => simp [originOk] at h
  | forwardRef n => simp [originOk] at h
  | galias a b => simp [originOk] at h
  | annAlias a b => simp [originOk] at h
  | dcInst a b => simp [originOk] at h
  | genC a b => simp [originOk] at h
  | dcC a b => simp [originOk] at h

mutual
theorem unwrap_wrap_id : ∀ v, Supported v = true → BaseContainer.unwrap (GenericContainer.wrap v) = v
  | .cls _, _ => rfl
  | .special _, _ => rfl
  | .lit _, _ => rfl
  | .forwardRef _, _ => rfl
  | .pyList _, h => by simp [Supported] at h
  | .pyDict _, h => by simp [Supported] at h
  | .genC _ _, h => by simp [Supported] at h
  | .dcC _ _, h => by simp [Supported] at h
  | .dcInst c fs, h => by
      have hfree : dcFreeFields fs = true := by simpa [Supported] using h
      simp [GenericContainer.wrap, asdictFields_dcFree fs hfree, BaseContainer.unwrap]
  | .galias o [], h => by simp [Supported] at h
  | .galias o (a :: as), h => by
      simp only [Supported, Bool.and_eq_true] at h
      have hOk : originOk o (a :: as) = true := h.1.1
      have hA : Supported a = true := by
        have := h.2
        simp only [SupportedList, Bool.and_eq_true] at this
        exact this.1
      have hAs : SupportedList as = true := by
        have := h.2
        simp only [SupportedList, Bool.and_eq_true] at this
        exact this.2
      simp only [GenericContainer.wrap, wrapList, BaseContainer.unwrap,
        BaseContainer.unwrapList]
      rw [unwrap_wrap_id a hA, unwrap_wrapList_id as hAs]
      exact subscript_originOk o (a :: as) hOk
  | .annAlias o [], h => by simp [Supported] at h
  | .annAlias o (m0 :: ms2), h => by
      simp only [Supported, Bool.and_eq_true] at h
      have hO : Supported o = true := h.1.2
      have hM0 : Supported m0 = true := by
        have := h.2
        simp only [SupportedList, Bool.and_eq_true] at this
        exact this.1
      have hMs : SupportedList ms2 = true := by
        have := h.2
        simp only [SupportedList, Bool.and_eq_true] at this
        exact this.2
      simp only [GenericContainer.wrap, wrapList, BaseContainer.unwrap,
        BaseContainer.unwrapList]
      rw [unwrap_wrap_id o hO, unwrap_wrap_id m0 hM0, unwrap_wrapList_id ms2 hMs]
      simp [subscript]

theorem unwrap_wrapList_id : ∀ xs, SupportedList xs = true → BaseContainer.unwrapList (wrapList xs) = xs
  | [], _ => rfl
  | x :: xs, h => by
      simp only [SupportedList, Bool.and_eq_true] at h
      simp only [wrapList, BaseContainer.unwrapList]
      rw [unwrap_wrap_id x h.1, unwrap_wrapList_id xs h.2]
end

theorem pyEqF_dcC_dcInst : ∀ f c fs, dcFreeFields fs = true → 3 + mFields fs ≤ f →
    pyEqF f (.dcC c fs) (.dcInst c fs) = true := by
  intro f c fs hfree hf
  cases f with
  | zero => omega
  | succ f2 =>
      simp only [pyEqF, DataclassContainer.wrap, asdictFields_dcFree fs hfree]
      exact (pyEqF_refl f2).1 (.dcC c fs) (by simp only [m]; omega)

/-- C1: for every supported generic/parameterized type `T` (plain generics
and special forms, builtin parameterized collections, nested unions,
literals, forward references, dataclass instances, annotated types with
metadata), `GenericContainer.unwrap (GenericContainer.wrap T)` is Python-equal
to `T`: the wrap/unwrap round-trip is lossless for origin+args pairs
reconstructible via subscription; and a zero-argument container unwraps to
its bare origin. -/
theorem C1_wrap_unwrap_roundtrip :
    (∀ T, Supported T = true →
      pyEq (GenericContainer.unwrap (GenericContainer.wrap T)) T = true)
    ∧ ∀ origin, GenericContainer.unwrap (.genC origin []) = origin := by
  constructor
  · intro T hT
    cases T with
    | dcInst c fs =>
        have hfree : dcFreeFields fs = true := by simpa [Supported] using hT
        simp only [GenericContainer.wrap, asdictFields_dcFree fs hfree,
          GenericContainer.unwrap]
        show pyEqF (3 * (m (.dcC c fs) + m (.dcInst c fs))
            + rawTop (.dcC c fs) + rawTop (.dcInst c fs) + 1) _ _ = true
        apply pyEqF_dcC_dcInst _ c fs hfree
        simp only [m, rawTop]
        omega
    | cls n => exact pyEq_refl _
    | special n => exact pyEq_refl _
    | lit v => exact pyEq_refl _
    | forwardRef n => exact pyEq_refl _
    | pyList xs => simp [Supported] at hT
    | pyDict kv => simp [Supported] at hT
    | genC o args => simp [Supported] at hT
    | dcC c kw => simp [Supported] at hT
    | galias o args =>
        have h := unwrap_wrap_id (.galias o args) hT
        simp only [GenericContainer.wrap] at h ⊢
        simp only [GenericContainer.unwrap]
        rw [h]
        exact pyEq_refl _
    | annAlias o ms =>
        have h := unwrap_wrap_id (.annAlias o ms) hT
        simp only [GenericContainer.wrap] at h ⊢
        simp only [GenericContainer.unwrap]
        rw [h]
        exact pyEq_refl _
  · intro origin
    rfl

theorem C1_wrap_unwrap_roundtrip_witness :
    pyEq (GenericContainer.unwrap (GenericContainer.wrap
      (.galias (.cls ("list")) [.cls ("int")])))
      (.galias (.cls ("list")) [.cls ("int")]) = true
    ∧ pyEq (GenericContainer.unwrap (GenericContainer.wrap
        (.annAlias (.galias (.special ("Union")) [.cls ("int"), .cls ("NoneType")])
          [.dcInst ("Meta") [("gt", .lit (.int 0))]])))
        (.annAlias (.galias (.special ("Union")) [.cls ("int"), .cls ("NoneType")])
          [.dcInst ("Meta") [("gt", .lit (.int 0))]]) = true
    ∧ GenericContainer.unwrap (.genC (.cls ("dict")) []) = .cls ("dict") :=
  ⟨C1_wrap_unwrap_roundtrip.1 _ (by decide),
   C1_wrap_unwrap_roundtrip.1 _ (by decide),
   C1_wrap_unwrap_roundtrip.2 _⟩

theorem lookupKw_filter (p : String → Bool) : ∀ (kw : Kw) (k : String),
    lookupKw (List.filter (fun kv => p kv.1) kw) k
      = if p k then lookupKw kw k else none := by
  intro kw k
  induction kw with
  | nil => simp [lookupKw]
  | cons kv rest ih =>
      simp only [List.filter_cons]
      by_cases hk : (kv.1 == k) = true
      · have hkeq : kv.1 = k := by simpa using hk
        subst hkeq
        by_cases hp : p kv.1 = true
        · simp [hp, lookupKw]
        · simp only [Bool.not_eq_true] at hp
          simp [hp, lookupKw, ih]
      · simp only [Bool.not_eq_true] at hk
        by_cases hp : p kv.1 = true
        · simp [hp, lookupKw, hk, ih]
        · simp only [Bool.not_eq_true] at hp
          simp [hp, ih, lookupKw, hk]

theorem lookupKw_popKw (kw : Kw) (k0 k : String) :
    lookupKw (popKw kw k0) k = if k = k0 then none else lookupKw kw k := by
  induction kw with
  | nil => simp [popKw, lookupKw]
  | cons kv rest ih =>
      simp only [popKw, List.filter_cons] at ih ⊢
      by_cases hne : (kv.1 != k0) = true
      · rw [if_pos hne]
        by_cases hk : (kv.1 == k) = true
        · have hkeq : kv.1 = k := by simpa using hk
          have : ¬ k = k0 := by
            intro hkk
            simp [bne_iff_ne, hkeq, hkk] at hne
          simp [lookupKw, hk, this]
        · simp only [lookupKw, hk, if_neg]
          simpa using ih
      · rw [if_neg hne]
        simp only [Bool.not_eq_true, bne_eq_false_iff_eq] at hne
        by_cases hk : (kv.1 == k) = true
        · have hkeq : kv.1 = k := by simpa using hk
          rw [ih]
          have : k = k0 := by rw [← hkeq, hne]
          simp [this]
        · rw [ih]
          by_cases hkk : k = k0
          · simp [hkk]
          · simp only [if_neg hkk]
            simp [lookupKw, hk]

theorem lookupKw_foldl_pop : ∀ (keys : List String) (kw : Kw) (k : String),
    lookupKw (List.foldl popKw kw keys) k
      = if keys.contains k then none else lookupKw kw k := by
  intro keys
  induction keys with
  | nil => intro kw k; simp
  | cons k0 ks ih =>
      intro kw k
      simp only [List.foldl_cons]
      rw [ih]
      by_cases hmem : ks.contains k = true
      · have hm : k ∈ ks := by simpa using hmem
        simp [hm, List.contains_cons]
      · have hm : ¬ k ∈ ks := by simpa using hmem
        by_cases h : k = k0
        · subst h
          simp [hm, lookupKw_popKw, List.contains_cons]
        · simp [hm, h, lookupKw_popKw, List.contains_cons]

theorem prepared_schema_fields (a : SchemaAdapter) (s : PyVal) (a1 : SchemaAdapter)
    (h : a.prepared_schema = .ok (s, a1)) :
    a1.export_kwargs = a.export_kwargs ∧ a1.schema = a.schema ∧ a1.attname = a.attname
    ∧ a1.parent_type = a.parent_type ∧ a1.allow_null = a.allow_null
    ∧ a1.config = a.config ∧ a1.cachePrepared = some s := by
  unfold SchemaAdapter.prepared_schema at h
  cases hc : a.cachePrepared with
  | some s0 =>
      rw [hc] at h
      simp only [Except.ok.injEq, Prod.mk.injEq] at h
      obtain ⟨h1, h2⟩ := h
      subst h1
      subst h2
      exact ⟨rfl, rfl, rfl, rfl, rfl, rfl, hc⟩
  | none =>
      rw [hc] at h
      cases hp : a.prepare_schema with
      | error e => rw [hp] at h; exact absurd h (by simp)
      | ok s0 =>
          rw [hp] at h
          simp only [Except.ok.injEq, Prod.mk.injEq] at h
          obtain ⟨h1, h2⟩ := h
          subst h1
          subst h2
          exact ⟨rfl, rfl, rfl, rfl, rfl, rfl, rfl⟩

theorem type_adapter_fields (a : SchemaAdapter) (t : TypeAdapterM) (a1 : SchemaAdapter)
    (h : a.type_adapter = .ok (t, a1)) :
    a1.export_kwargs = a.export_kwargs ∧ a1.schema = a.schema ∧ a1.attname = a.attname := by
  unfold SchemaAdapter.type_adapter at h
  cases hc : a.cacheTypeAdapter with
  | some t0 =>
      rw [hc] at h
      simp only [Except.ok.injEq, Prod.mk.injEq] at h
      obtain ⟨h1, h2⟩ := h
      subst h2
      exact ⟨rfl, rfl, rfl⟩
  | none =>
      rw [hc] at h
      cases hp : a.prepared_schema with
      | error e => rw [hp] at h; exact absurd h (by simp)
      | ok p =>
          rw [hp] at h
          simp only [Except.ok.injEq, Prod.mk.injEq] at h
          obtain ⟨h1, h2⟩ := h
          obtain ⟨hkw, hs, hat, _⟩ := prepared_schema_fields a p.1 p.2 (by rw [hp])
          subst h2
          exact ⟨hkw, hs, hat⟩

/-- C3: accessing `prepared_schema` twice without an intervening `bind`
returns the same memoized result; every `bind` call clears both the cached
prepared schema and the cached validator; and resolution after rebinding
depends only on the raw schema and the new binding, never on previously
cached state, so it reflects the new owner's annotation. -/
theorem C3_resolution_memoized_and_bind_invalidates :
    (∀ a s a1, SchemaAdapter.prepared_schema a = .ok (s, a1) →
        SchemaAdapter.prepared_schema a1 = .ok (s, a1))
    ∧ (∀ a pt an, (SchemaAdapter.bind a pt an).cachePrepared = none
        ∧ (SchemaAdapter.bind a pt an).cacheTypeAdapter = none)
    ∧ (∀ a b pt an, a.schema = b.schema →
        exceptFst (SchemaAdapter.prepared_schema (SchemaAdapter.bind a pt an))
          = exceptFst (SchemaAdapter.prepared_schema (SchemaAdapter.bind b pt an))) := by
  refine ⟨?_, ?_, ?_⟩
  · intro a s a1 h
    have hc := (prepared_schema_fields a s a1 h).2.2.2.2.2.2
    unfold SchemaAdapter.prepared_schema
    rw [hc]
  · intro a pt an
    exact ⟨rfl, rfl⟩
  · intro a b pt an hschema
    have hpre : SchemaAdapter.prepare_schema (SchemaAdapter.bind a pt an)
        = SchemaAdapter.prepare_schema (SchemaAdapter.bind b pt an) := by
      simp only [SchemaAdapter.prepare_schema, SchemaAdapter.bind, SchemaAdapter.is_bound,
        hschema]
    have hca : (SchemaAdapter.bind a pt an).cachePrepared = none := rfl
    have hcb : (SchemaAdapter.bind b pt an).cachePrepared = none := rfl
    unfold SchemaAdapter.prepared_schema
    rw [hca, hcb, hpre]
    cases SchemaAdapter.prepare_schema (SchemaAdapter.bind b pt an) with
    | error e => rfl
    | ok s => rfl

/-- Witness fixtures: two owners annotating the same attribute with
different types, and an adapter initially bound to the first. -/
theorem C3_resolution_memoized_witness :
    SchemaAdapter.prepared_schema adapterOneCached = .ok (.cls ("int"), adapterOneCached)
    ∧ ((SchemaAdapter.bind adapterOneCached (some ownerTwo) (some ("f"))).cachePrepared = none
        ∧ (SchemaAdapter.bind adapterOneCached (some ownerTwo) (some ("f"))).cacheTypeAdapter = none)
    ∧ exceptFst (SchemaAdapter.prepared_schema
          (SchemaAdapter.bind adapterOneCached (some ownerTwo) (some ("f"))))
        = exceptFst (SchemaAdapter.prepared_schema
          (SchemaAdapter.bind adapterOne (some ownerTwo) (some ("f"))))
    ∧ exceptFst (SchemaAdapter.prepared_schema
          (SchemaAdapter.bind adapterOneCached (some ownerTwo) (some ("f"))))
        = .ok (.cls ("str")) :=
  ⟨C3_resolution_memoized_and_bind_invalidates.1 adapterOne (.cls ("int")) adapterOneCached rfl,
   C3_resolution_memoized_and_bind_invalidates.2.1 adapterOneCached (some ownerTwo) (some ("f")),
   C3_resolution_memoized_and_bind_invalidates.2.2 adapterOneCached adapterOne
     (some ownerTwo) (some ("f")) rfl,
   rfl⟩

/-- C7: `bind` never raises - it is the plain structural update setting the
binding fields and clearing the caches, for every adapter state; when the
schema cannot resolve, the resolution-time error is raised synchronously
from whichever call first needs the resolved schema (`prepared_schema`
access, `type_adapter` access, `validate_python`, `validate_schema` - the
latter re-wrapped as the improperly-configured error), never from `bind`
itself. -/
theorem C7_bind_never_raises_errors_deferred :
    (∀ a pt an, SchemaAdapter.bind a pt an =
        { a with parent_type := pt, attname := an,
                 cachePrepared := none, cacheTypeAdapter := none })
    ∧ (∀ a pt an e, (SchemaAdapter.bind a pt an).prepare_schema = .error e →
        (SchemaAdapter.bind a pt an).prepared_schema = .error e
        ∧ (SchemaAdapter.bind a pt an).type_adapter = .error e
        ∧ (∀ v s fa, (SchemaAdapter.bind a pt an).validate_python v s fa = .error e)
        ∧ (SchemaAdapter.bind a pt an).validate_schema
            = .error (.improperlyConfigured e.argsMsg)) := by
  refine ⟨fun a pt an => rfl, ?_⟩
  intro a pt an e h
  have hps : (SchemaAdapter.bind a pt an).prepared_schema = .error e := by
    have hca : (SchemaAdapter.bind a pt an).cachePrepared = none := rfl
    unfold SchemaAdapter.prepared_schema
    rw [hca, h]
  have hta : (SchemaAdapter.bind a pt an).type_adapter = .error e := by
    have hct : (SchemaAdapter.bind a pt an).cacheTypeAdapter = none := rfl
    unfold SchemaAdapter.type_adapter
    rw [hct, hps]
  refine ⟨hps, hta, ?_, ?_⟩
  · intro v s fa
    unfold SchemaAdapter.validate_python
    rw [hta]
  · unfold SchemaAdapter.validate_schema
    rw [h]
    cases e <;> rfl

/-- Witness fixtures for the deferred-forward-reference scenario: the same
module before and after the referenced symbol is defined. -/
theorem C7_bind_never_raises_witness :
    (SchemaAdapter.bind adapterBlank (some moduleEarly) (some ("f")) =
        { adapterBlank with parent_type := some moduleEarly, attname := some ("f"),
                            cachePrepared := none, cacheTypeAdapter := none })
    ∧ ((SchemaAdapter.bind adapterBlank (some moduleEarly) (some ("f"))).prepared_schema
          = .error (.nameError ("Later"))
        ∧ (SchemaAdapter.bind adapterBlank (some moduleEarly) (some ("f"))).type_adapter
          = .error (.nameError ("Later"))
        ∧ (∀ v s fa, (SchemaAdapter.bind adapterBlank (some moduleEarly) (some ("f"))).validate_python v s fa
          = .error (.nameError ("Later")))
        ∧ (SchemaAdapter.bind adapterBlank (some moduleEarly) (some ("f"))).validate_schema
          = .error (.improperlyConfigured ("Later")))
    ∧ exceptFst ((SchemaAdapter.bind adapterBlank (some moduleLate) (some ("f"))).prepared_schema)
        = .ok (.cls ("int")) :=
  ⟨C7_bind_never_raises_errors_deferred.1 adapterBlank (some moduleEarly) (some ("f")),
   C7_bind_never_raises_errors_deferred.2 adapterBlank (some moduleEarly) (some ("f"))
     (.nameError ("Later")) rfl,
   rfl⟩

theorem export_deprecated_disjoint (k : String) :
    exportKwargKeys.contains k = true → deprecatedV1Keys.contains k = false := by
  intro h
  simp only [exportKwargKeys, List.contains_cons, List.contains_nil, Bool.or_eq_true,
    beq_iff_eq, Bool.false_eq_true, or_false] at h
  rcases h with h | h | h | h | h | h | h | h | h | h | h
  all_goals subst h
  all_goals decide

/-- C4 (amended): `extract_export_kwargs` pops exactly the recognized export
keys out of the options mapping and returns them; it additionally strips the
deprecated Pydantic-v1-only keys (`allow_nan`, `indent`, `separators`,
`skipkeys`, `sort_keys`) from the mapping without returning them; every other
unrecognized key is left untouched in the mapping for the caller. -/
theorem C4_extract_export_kwargs_amended :
    ∀ (kwargs : Kw) (k : String),
      (exportKwargKeys.contains k = true →
        lookupKw (SchemaAdapter.extract_export_kwargs kwargs).1 k = lookupKw kwargs k
        ∧ lookupKw (SchemaAdapter.extract_export_kwargs kwargs).2 k = none)
      ∧ (deprecatedV1Keys.contains k = true →
        lookupKw (SchemaAdapter.extract_export_kwargs kwargs).1 k = none
        ∧ lookupKw (SchemaAdapter.extract_export_kwargs kwargs).2 k = none)
      ∧ (exportKwargKeys.contains k = false → deprecatedV1Keys.contains k = false →
        lookupKw (SchemaAdapter.extract_export_kwargs kwargs).1 k = none
        ∧ lookupKw (SchemaAdapter.extract_export_kwargs kwargs).2 k = lookupKw kwargs k) := by
  intro kwargs k
  have hT := lookupKw_foldl_pop deprecatedV1Keys kwargs k
  refine ⟨?_, ?_, ?_⟩
  · intro hk
    have hd : deprecatedV1Keys.contains k = false := export_deprecated_disjoint k hk
    simp only [SchemaAdapter.extract_export_kwargs, truncate_deprecated_v1_export_kwargs]
    rw [lookupKw_filter (List.contains exportKwargKeys),
      lookupKw_filter (fun s => !List.contains exportKwargKeys s), hT]
    exact ⟨by rw [if_pos (by simpa using hk), if_neg (by simpa using hd)],
      by rw [if_neg (by simpa using hk)]⟩
  · intro hk
    have he : exportKwargKeys.contains k = false := by
      cases hcase : exportKwargKeys.contains k
      · rfl
      · have hdis := export_deprecated_disjoint k hcase
        rw [hdis] at hk
        exact absurd hk (by simp)
    simp only [SchemaAdapter.extract_export_kwargs, truncate_deprecated_v1_export_kwargs]
    rw [lookupKw_filter (List.contains exportKwargKeys),
      lookupKw_filter (fun s => !List.contains exportKwargKeys s), hT]
    exact ⟨by rw [if_neg (by simpa using he)],
      by rw [if_pos (by simpa using he), if_pos (by simpa using hk)]⟩
  · intro hk hd
    simp only [SchemaAdapter.extract_export_kwargs, truncate_deprecated_v1_export_kwargs]
    rw [lookupKw_filter (List.contains exportKwargKeys),
      lookupKw_filter (fun s => !List.contains exportKwargKeys s), hT]
    exact ⟨by rw [if_neg (by simpa using hk)],
      by rw [if_pos (by simpa using hk), if_neg (by simpa using hd)]⟩

theorem C4_claim_counterexample :
    lookupKw (SchemaAdapter.extract_export_kwargs [(("indent"), .lit (.int 2))]).2 ("indent")
      = none
    ∧ lookupKw [(("indent"), .lit (.int 2))] ("indent") = some (.lit (.int 2))
    ∧ exportKwargKeys.contains ("indent") = false
    ∧ (SchemaAdapter.extract_export_kwargs [(("indent"), .lit (.int 2))]).1 = [] :=
  ⟨rfl, rfl, rfl, rfl⟩

theorem C4_extract_export_kwargs_amended_witness :
    (lookupKw (SchemaAdapter.extract_export_kwargs kwargsExample).1 ("strict")
        = some (.lit (.bool true))
      ∧ lookupKw (SchemaAdapter.extract_export_kwargs kwargsExample).2 ("strict") = none)
    ∧ (lookupKw (SchemaAdapter.extract_export_kwargs kwargsExample).1 ("unrelated_flag") = none
      ∧ lookupKw (SchemaAdapter.extract_export_kwargs kwargsExample).2 ("unrelated_flag")
        = some (.lit (.int 1))) := by
  constructor
  · have h := (C4_extract_export_kwargs_amended kwargsExample ("strict")).1 (by decide)
    exact ⟨h.1.trans rfl, h.2⟩
  · have h := (C4_extract_export_kwargs_amended kwargsExample ("unrelated_flag")).2.2
      (by decide) (by decide)
    exact ⟨h.1, h.2.trans rfl⟩

theorem mList_append : ∀ xs ys : List PyVal, mList (xs ++ ys) = mList xs + mList ys := by
  intro xs ys
  induction xs with
  | nil => simp [mList]
  | cons x xs ih => simp [mList, ih]; omega

theorem isNoneType_eq (x : PyVal) (h : isNoneType x = true) : x = .cls ("NoneType") := by
  unfold isNoneType at h
  split at h
  · rfl
  · exact absurd h (by simp)

theorem anyConformsF_noneType : ∀ (f : Nat) (xs ys : List PyVal),
    xs.length + 2 ≤ f →
    anyConformsF f (xs ++ .cls ("NoneType") :: ys) (.lit .pynone) = true := by
  intro f xs
  induction xs generalizing f with
  | nil =>
      intro ys hf
      cases f with
      | zero => omega
      | succ f1 =>
          simp only [List.nil_append, anyConformsF]
          cases f1 with
          | zero => omega
          | succ f2 => simp [strictConformsF]
  | cons x xs ih =>
      intro ys hf
      cases f with
      | zero => omega
      | succ f1 =>
          simp only [List.cons_append, anyConformsF, List.append_eq]
          rw [ih f1 ys (by simp only [List.length_cons] at hf; omega)]
          simp

theorem strictConforms_optionalWrap_none : ∀ s,
    strictConforms (optionalWrap s) (.lit .pynone) = true := by
  have key : ∀ (args xs ys : List PyVal) (f : Nat), args = xs ++ .cls ("NoneType") :: ys →
      args.length + 2 ≤ f →
      strictConformsF (f + 1) (.galias (.special ("Union")) args) (.lit .pynone) = true := by
    rintro args xs ys f rfl hf
    simp only [strictConformsF]
    exact anyConformsF_noneType f xs ys (by simp only [List.length_append, List.length_cons] at hf; omega)
  intro s
  show strictConformsF (m (optionalWrap s) + m (.lit .pynone) + 1) (optionalWrap s) (.lit .pynone) = true
  unfold optionalWrap
  split
  · next args =>
      split
      · next hAny =>
          obtain ⟨x, hmem, hx⟩ := List.any_eq_true.mp hAny
          obtain ⟨pre, post, rfl⟩ := List.append_of_mem hmem
          have hx2 := isNoneType_eq x hx
          subst hx2
          apply key _ pre post _ rfl
          have h1 := mList_ge_length pre
          have h2 := mList_ge_length post
          simp only [m, mList_append, mList, List.length_append, List.length_cons]
          omega
      · apply key _ args [] _ rfl
        have h1 := mList_ge_length args
        simp only [m, mList_append, mList, List.length_append, List.length_cons,
          List.length_nil]
        omega
  · decide
  · apply key _ [s] [] _ rfl
    simp only [List.cons_append, List.nil_append, m, mList, List.length_cons,
      List.length_nil, List.length_append]
    omega

theorem laxCoerce_pynone : ∀ T, laxCoerce T (.lit .pynone) = none := by
  intro T
  rfl

theorem validate_python_eq (a : SchemaAdapter) (t : TypeAdapterM) (a1 : SchemaAdapter)
    (h : SchemaAdapter.type_adapter a = .ok (t, a1)) (v : PyVal) (strict fa : Option PyVal) :
    SchemaAdapter.validate_python a v strict fa
      = (pdValidatePython t.taSchema v
          (optOr strict (lookupKw a.export_kwargs ("strict")))
          (optOr fa (lookupKw a.export_kwargs ("from_attributes")))).map (fun r => (r, a1)) := by
  unfold SchemaAdapter.validate_python
  rw [h]
  cases strict <;> cases fa <;> rfl

theorem validate_json_eq (a : SchemaAdapter) (t : TypeAdapterM) (a1 : SchemaAdapter)
    (h : SchemaAdapter.type_adapter a = .ok (t, a1)) (v : PyVal) (strict : Option PyVal) :
    SchemaAdapter.validate_json a v strict
      = (pdValidateJson t.taSchema v
          (optOr strict (lookupKw a.export_kwargs ("strict")))).map (fun r => (r, a1)) := by
  unfold SchemaAdapter.validate_json
  rw [h]
  cases strict <;> rfl

theorem exceptOk_map (x : Except PyErr PyVal) (f : PyVal → PyVal × SchemaAdapter) :
    exceptOk (Except.map f x) = x.isOk := by
  cases x <;> rfl

theorem pdValidate_pynone_ok (T : PyVal) (strict fa : Option PyVal) :
    (pdValidatePython T (.lit .pynone) strict fa).isOk = strictConforms T (.lit .pynone) := by
  unfold pdValidatePython
  by_cases h : strictConforms T (.lit .pynone) = true
  · simp [h, Except.isOk, Except.toBool]
  · have h2 : strictConforms T (.lit .pynone) = false := by
      cases hh : strictConforms T (.lit .pynone)
      · rfl
      · exact absurd hh h
    rw [h2, laxCoerce_pynone]
    by_cases ht : truthyOpt strict = true
    · simp [ht, Except.isOk, Except.toBool]
    · have ht2 : truthyOpt strict = false := by
        cases hh : truthyOpt strict
        · rfl
        · exact absurd hh ht
      simp [ht2, Except.isOk, Except.toBool]

/-- C2 (amended): on the current adapter, `allow_null=True` makes the schema
the validator is built over (the `type_adapter`) the nullable wrapping of the
resolved type, while the memoized `prepared_schema` itself stays unwrapped;
in the legacy v2 adapter the wrap happens inside `_prepare_schema`, so there
the prepared schema is the nullable wrapping; and `validate_python(None)`
succeeds iff `allow_null` is truthy or the resolved schema itself already
admits `None`. -/
theorem C2_allow_null_amended :
    ∀ a s a1, a.cachePrepared = none → a.cacheTypeAdapter = none →
      SchemaAdapter.prepared_schema a = .ok (s, a1) →
      ((a.allow_null == some true) = true →
        (∃ t a2, SchemaAdapter.type_adapter a = .ok (t, a2) ∧ t.taSchema = optionalWrap s)
        ∧ LegacyV2.prepare_schema a = .ok (optionalWrap s))
      ∧ exceptOk (SchemaAdapter.validate_python a (.lit .pynone) none none)
          = ((a.allow_null == some true) || strictConforms s (.lit .pynone)) := by
  intro a s a1 hcp hct hps
  have hpre : SchemaAdapter.prepare_schema a = .ok s := by
    unfold SchemaAdapter.prepared_schema at hps
    rw [hcp] at hps
    cases hp : a.prepare_schema with
    | error e => rw [hp] at hps; exact absurd hps (by simp)
    | ok s0 =>
        rw [hp] at hps
        simp only [Except.ok.injEq, Prod.mk.injEq] at hps
        rw [hps.1]
  obtain ⟨a2, hta⟩ : ∃ a2, SchemaAdapter.type_adapter a
      = .ok ({ taSchema := if a.allow_null == some true then optionalWrap s else s,
               taConfig := a.config }, a2) := by
    unfold SchemaAdapter.type_adapter
    rw [hct, hps]
    exact ⟨_, rfl⟩
  constructor
  · intro hnull
    constructor
    · refine ⟨_, a2, hta, ?_⟩
      simp [hnull]
    · unfold LegacyV2.prepare_schema
      rw [hpre]
      simp [hnull, Except.map]
  · rw [validate_python_eq a _ a2 hta, exceptOk_map, pdValidate_pynone_ok]
    by_cases hnull : (a.allow_null == some true) = true
    · rw [hnull]
      simp only [hnull, if_true]
      rw [strictConforms_optionalWrap_none s]
      simp
    · have hnull2 : (a.allow_null == some true) = false := by
        cases hh : (a.allow_null == some true)
        · rfl
        · exact absurd hh hnull
      rw [hnull2]
      simp only [hnull2, Bool.false_eq_true, if_false, Bool.false_or]

theorem C2_claim_counterexample :
    SchemaAdapter.prepared_value adapterNullInt = .ok (.cls ("int"))
    ∧ adapterNullInt.allow_null = some true
    ∧ pyEq (.cls ("int")) (optionalWrap (.cls ("int"))) = false :=
  ⟨rfl, rfl, by decide⟩

theorem C2_allow_null_amended_witness :
    ((∃ t a2, SchemaAdapter.type_adapter adapterNullInt = .ok (t, a2)
        ∧ t.taSchema = optionalWrap (.cls ("int")))
      ∧ LegacyV2.prepare_schema adapterNullInt = .ok (optionalWrap (.cls ("int"))))
    ∧ exceptOk (SchemaAdapter.validate_python adapterNullInt (.lit .pynone) none none)
        = ((adapterNullInt.allow_null == some true)
            || strictConforms (.cls ("int")) (.lit .pynone)) := by
  have h := C2_allow_null_amended adapterNullInt (.cls ("int"))
      { adapterNullInt with cachePrepared := some (.cls ("int")) } rfl rfl rfl
  exact ⟨h.1 (by decide), h.2⟩

/-- C5: `validate_python` and `validate_json` use a call-site `strict` /
`from_attributes` override for that call only (the adapter's stored export
kwargs are left untouched), and when the caller leaves them unspecified they
fall back to the adapter's stored export kwargs, not to a library default;
in particular, on an adapter stored with `strict=False`, a
`strict=True` call validates strictly and a subsequent plain call reverts to
the stored `strict=False`. -/
theorem C5_strict_override_precedence :
    ∀ a v t a1, SchemaAdapter.type_adapter a = .ok (t, a1) →
      (∀ strict fa, SchemaAdapter.validate_python a v strict fa
          = (pdValidatePython t.taSchema v
              (optOr strict (lookupKw a.export_kwargs ("strict")))
              (optOr fa (lookupKw a.export_kwargs ("from_attributes")))).map (fun r => (r, a1)))
      ∧ a1.export_kwargs = a.export_kwargs
      ∧ (∀ strict, SchemaAdapter.validate_json a v strict
          = (pdValidateJson t.taSchema v
              (optOr strict (lookupKw a.export_kwargs ("strict")))).map (fun r => (r, a1)))
      ∧ (lookupKw a.export_kwargs ("strict") = some (.lit (.bool false)) →
          SchemaAdapter.validate_python a v (some (.lit (.bool true))) none
            = (pdValidatePython t.taSchema v (some (.lit (.bool true)))
                (lookupKw a.export_kwargs ("from_attributes"))).map (fun r => (r, a1))
          ∧ SchemaAdapter.validate_python a v none none
            = (pdValidatePython t.taSchema v (some (.lit (.bool false)))
                (lookupKw a.export_kwargs ("from_attributes"))).map (fun r => (r, a1))) := by
  intro a v t a1 h
  refine ⟨fun strict fa => validate_python_eq a t a1 h v strict fa,
    (type_adapter_fields a t a1 h).1,
    fun strict => validate_json_eq a t a1 h v strict, ?_⟩
  intro hstored
  constructor
  · rw [validate_python_eq a t a1 h v (some (.lit (.bool true))) none]
    rfl
  · rw [validate_python_eq a t a1 h v none none]
    simp only [optOr]
    rw [hstored]

theorem C5_strict_override_witness :
    SchemaAdapter.validate_python adapterStrictFalse (.lit (.str ("1")))
        (some (.lit (.bool true))) none
      = .error .validationError
    ∧ SchemaAdapter.validate_python adapterStrictFalse (.lit (.str ("1"))) none none
      = .ok (.lit (.int 1), aStrictCached)
    ∧ aStrictCached.export_kwargs = adapterStrictFalse.export_kwargs := by
  have h := C5_strict_override_precedence adapterStrictFalse (.lit (.str ("1")))
    tInt aStrictCached rfl
  have h2 := h.2.2.2 rfl
  refine ⟨?_, ?_, h.2.1⟩
  · rw [h2.1]
    rfl
  · rw [h2.2]
    rfl

theorem chainLookup_cons (kw : Kw) (rest : List Kw) (k : String) :
    chainLookup (kw :: rest) k = optOr (lookupKw kw k) (chainLookup rest k) := by
  cases h : lookupKw kw k <;> simp [chainLookup, optOr, h]

theorem lookupKw_mode_default (k : String) :
    lookupKw [(("mode"), PyVal.lit (.str ("json")))] k
      = (if k = "mode" then some (.lit (.str ("json"))) else none) := by
  by_cases h : k = "mode"
  · subst h
    simp [lookupKw]
  · simp only [lookupKw]
    rw [if_neg (by simpa using fun hh => h hh.symm), if_neg h]

/-- C6 (amended): the effective keyword mapping of `dump_json` is exactly
the adapter's stored export kwargs minus `strict`/`from_attributes`,
overlaid by the call-site overrides (overrides win); `dump_python`
additionally supplies a default `mode="json"` when neither the overrides nor
the stored kwargs set `mode`; the stored `strict` and `from_attributes` are
never part of the dump kwargs, while every other stored key passes through;
and the dump operations pass exactly these chains to the external dump
primitives. -/
theorem C6_dump_kwargs_amended :
    ∀ (a : SchemaAdapter) (ov : Kw) (k : String),
      chainLookup (SchemaAdapter.dump_json_chain a ov) k
        = optOr (lookupKw ov k) (lookupKw (SchemaAdapter.dump_python_kwargs a) k)
      ∧ chainLookup (SchemaAdapter.dump_python_chain a ov) k
        = optOr (lookupKw ov k) (optOr (lookupKw (SchemaAdapter.dump_python_kwargs a) k)
            (if k = "mode" then some (.lit (.str ("json"))) else none))
      ∧ lookupKw (SchemaAdapter.dump_python_kwargs a) ("strict") = none
      ∧ lookupKw (SchemaAdapter.dump_python_kwargs a) ("from_attributes") = none
      ∧ (¬ k = "strict" → ¬ k = "from_attributes" →
          lookupKw (SchemaAdapter.dump_python_kwargs a) k = lookupKw a.export_kwargs k)
      ∧ (∀ v t a1, SchemaAdapter.type_adapter a = .ok (t, a1) →
          SchemaAdapter.dump_python a v ov
            = .ok ((pdDump t.taSchema v (SchemaAdapter.dump_python_chain a ov),
                    SchemaAdapter.dump_python_chain a ov), a1)
          ∧ SchemaAdapter.dump_json a v ov
            = .ok ((pdDump t.taSchema v (SchemaAdapter.dump_json_chain a ov),
                    SchemaAdapter.dump_json_chain a ov), a1)) := by
  intro a ov k
  refine ⟨?_, ?_, ?_, ?_, ?_, ?_⟩
  · unfold SchemaAdapter.dump_json_chain
    rw [chainLookup_cons, chainLookup_cons]
    cases lookupKw ov k <;> cases lookupKw (SchemaAdapter.dump_python_kwargs a) k <;>
      simp [optOr, chainLookup]
  · unfold SchemaAdapter.dump_python_chain
    rw [chainLookup_cons, chainLookup_cons, chainLookup_cons, lookupKw_mode_default]
    by_cases hm : k = "mode" <;>
      cases lookupKw ov k <;> cases lookupKw (SchemaAdapter.dump_python_kwargs a) k <;>
        simp [optOr, chainLookup, hm]
  · unfold SchemaAdapter.dump_python_kwargs
    rw [lookupKw_popKw, lookupKw_popKw]
    simp
  · unfold SchemaAdapter.dump_python_kwargs
    rw [lookupKw_popKw]
    simp
  · intro h1 h2
    unfold SchemaAdapter.dump_python_kwargs
    rw [lookupKw_popKw, lookupKw_popKw]
    rw [if_neg h2, if_neg h1]
  · intro v t a1 h
    unfold SchemaAdapter.dump_python SchemaAdapter.dump_json
    rw [h]
    exact ⟨rfl, rfl⟩

theorem C6_claim_counterexample :
    chainLookup (SchemaAdapter.dump_python_chain adapterPlainInt []) ("mode")
      = some (.lit (.str ("json")))
    ∧ optOr (lookupKw ([] : Kw) ("mode"))
        (lookupKw (SchemaAdapter.dump_python_kwargs adapterPlainInt) ("mode")) = none
    ∧ adapterPlainInt.export_kwargs = [] :=
  ⟨rfl, rfl, rfl⟩

theorem C6_dump_kwargs_amended_witness :
    chainLookup (SchemaAdapter.dump_json_chain adapterStrictFalse [(("by_alias"), .lit (.bool true))]) ("by_alias")
      = optOr (lookupKw [(("by_alias"), .lit (.bool true))] ("by_alias"))
          (lookupKw (SchemaAdapter.dump_python_kwargs adapterStrictFalse) ("by_alias"))
    ∧ lookupKw (SchemaAdapter.dump_python_kwargs adapterStrictFalse) ("strict") = none
    ∧ (¬ ("by_alias") = "strict" → ¬ ("by_alias") = "from_attributes" →
        lookupKw (SchemaAdapter.dump_python_kwargs adapterStrictFalse) ("by_alias")
          = lookupKw adapterStrictFalse.export_kwargs ("by_alias"))
    ∧ SchemaAdapter.dump_python adapterPlainInt (.lit (.int 5)) []
        = .ok ((pdDump tInt.taSchema (.lit (.int 5)) (SchemaAdapter.dump_python_chain adapterPlainInt []),
                SchemaAdapter.dump_python_chain adapterPlainInt []), aPlainIntCached) := by
  have h1 := C6_dump_kwargs_amended adapterStrictFalse
    [(("by_alias"), .lit (.bool true))] ("by_alias")
  have h2 := C6_dump_kwargs_amended adapterPlainInt [] ("mode")
  exact ⟨h1.1, h1.2.2.1, h1.2.2.2.2.1,
    (h2.2.2.2.2.2 (.lit (.int 5)) tInt aPlainIntCached rfl).1⟩

/-- C8 (amended): two adapters are equal iff their attname, export kwargs
and prepared schemas are all equal, with these refinements forced by the
source: when preparing self's schema fails with the improperly-configured
error, bound-times-bound pairs are unequal and otherwise the raw
schema/config/null-policy triples are compared in place of both prepared
schemas; when only the other side fails with that error, the comparison is
unequal outright (the compared field lists diverge in length), even if
either side is unbound and the raw triples agree; and a preparation failure
other than the improperly-configured error (e.g. an unresolvable forward
reference) propagates out of the comparison instead of yielding a
verdict. -/
theorem C8_adapter_eq_amended :
    ∀ a b : SchemaAdapter,
      (∀ sa sb, SchemaAdapter.prepared_value a = .ok sa →
        SchemaAdapter.prepared_value b = .ok sb →
        SchemaAdapter.eq a b
          = .ok ((a.attname == b.attname && kwEqB a.export_kwargs b.export_kwargs)
              && pyEq sa sb))
      ∧ (∀ msg, SchemaAdapter.prepared_value a = .error (.improperlyConfigured msg) →
        SchemaAdapter.eq a b
          = (if (a.is_bound && b.is_bound) = true then .ok false
             else .ok ((a.attname == b.attname && kwEqB a.export_kwargs b.export_kwargs)
                && optPyEq a.schema b.schema && optPyEq a.config b.config
                && (a.allow_null == b.allow_null))))
      ∧ (∀ sa msg, SchemaAdapter.prepared_value a = .ok sa →
          SchemaAdapter.prepared_value b = .error (.improperlyConfigured msg) →
          SchemaAdapter.eq a b = .ok false)
      ∧ (∀ n, SchemaAdapter.prepared_value a = .error (.nameError n) →
          SchemaAdapter.eq a b = .error (.nameError n))
      ∧ (∀ sa n, SchemaAdapter.prepared_value a = .ok sa →
          SchemaAdapter.prepared_value b = .error (.nameError n) →
          SchemaAdapter.eq a b = .error (.nameError n)) := by
  intro a b
  refine ⟨?_, ?_, ?_, ?_, ?_⟩
  · intro sa sb h1 h2
    simp only [SchemaAdapter.eq, h1, h2]
  · intro msg h1
    simp only [SchemaAdapter.eq, h1]
  · intro sa msg h1 h2
    simp only [SchemaAdapter.eq, h1, h2]
  · intro n h1
    simp only [SchemaAdapter.eq, h1]
  · intro sa n h1 h2
    simp only [SchemaAdapter.eq, h1, h2]

/-- Counterexample fixtures: a schema-less adapter bound to an owner whose
annotation resolves, against a schema-less unbound adapter with the same
attname, kwargs, raw schema, config and null policy. -/
theorem C8_claim_counterexample :
    SchemaAdapter.eq adapterC8Bound adapterC8Unbound = .ok false
    ∧ adapterC8Bound.attname = adapterC8Unbound.attname
    ∧ kwEqB adapterC8Bound.export_kwargs adapterC8Unbound.export_kwargs = true
    ∧ adapterC8Unbound.is_bound = false
    ∧ optPyEq adapterC8Bound.schema adapterC8Unbound.schema = true
    ∧ optPyEq adapterC8Bound.config adapterC8Unbound.config = true
    ∧ (adapterC8Bound.allow_null == adapterC8Unbound.allow_null) = true
    ∧ SchemaAdapter.prepared_value adapterC8Bound = .ok (.cls ("int"))
    ∧ SchemaAdapter.prepared_value adapterC8Unbound
        = .error (.improperlyConfigured
            ("Cannot resolve the schema. The adapter is accessed before it was bound.")) :=
  ⟨rfl, rfl, rfl, rfl, rfl, rfl, rfl, rfl, rfl⟩

theorem C8_adapter_eq_amended_witness :
    SchemaAdapter.eq adapterPlainInt adapterPlainInt
      = .ok ((adapterPlainInt.attname == adapterPlainInt.attname
          && kwEqB adapterPlainInt.export_kwargs adapterPlainInt.export_kwargs)
          && pyEq (.cls ("int")) (.cls ("int")))
    ∧ SchemaAdapter.eq adapterC8Bound adapterC8Unbound = .ok false :=
  ⟨(C8_adapter_eq_amended adapterPlainInt adapterPlainInt).1 (.cls ("int")) (.cls ("int")) rfl rfl,
   (C8_adapter_eq_amended adapterC8Bound adapterC8Unbound).2.2.1 (.cls ("int"))
     ("Cannot resolve the schema. The adapter is accessed before it was bound.") rfl rfl⟩

theorem unwrap_raw_id : ∀ v, Supported v = true → BaseContainer.unwrap v = v := by
  intro v h
  cases v <;> first | rfl | simp [Supported] at h

/-- C9: the adapter constructor eagerly unwraps a container-wrapped schema
spec: for every supported type `T`, constructing with
`GenericContainer.wrap T` produces the very same adapter state as
constructing with `T` directly (hence the same stored raw schema and the
same prepared schema), and when the schema resolves the two construction
paths yield adapters comparing equal. -/
theorem C9_constructor_unwraps_wrapped_schema :
    ∀ (T : PyVal) (config : Option PyVal) (pt : Option PyClass) (an : Option String)
      (nul : Option Bool) (kw : Kw), Supported T = true →
      SchemaAdapter.init (some (GenericContainer.wrap T)) config pt an nul kw
        = SchemaAdapter.init (some T) config pt an nul kw
      ∧ (SchemaAdapter.init (some T) config pt an nul kw).schema = some T
      ∧ (∀ s, SchemaAdapter.prepared_value
            (SchemaAdapter.init (some T) config pt an nul kw) = .ok s →
          SchemaAdapter.eq (SchemaAdapter.init (some (GenericContainer.wrap T)) config pt an nul kw)
            (SchemaAdapter.init (some T) config pt an nul kw) = .ok true) := by
  intro T config pt an nul kw hT
  have hs : BaseContainer.unwrap (GenericContainer.wrap T) = T := unwrap_wrap_id T hT
  have hraw : BaseContainer.unwrap T = T := unwrap_raw_id T hT
  have hinit : SchemaAdapter.init (some (GenericContainer.wrap T)) config pt an nul kw
      = SchemaAdapter.init (some T) config pt an nul kw := by
    unfold SchemaAdapter.init
    simp [hs, hraw]
  refine ⟨hinit, ?_, ?_⟩
  · unfold SchemaAdapter.init
    simp [hraw]
  · intro s hprep
    rw [hinit]
    simp only [SchemaAdapter.eq, hprep]
    simp [kwEqB_refl, pyEq_refl]

theorem C9_constructor_unwraps_witness :
    SchemaAdapter.init
        (some (GenericContainer.wrap (.galias (.cls ("list")) [.cls ("int")])))
        none none none none []
      = SchemaAdapter.init (some (.galias (.cls ("list")) [.cls ("int")])) none none none none []
    ∧ SchemaAdapter.eq
        (SchemaAdapter.init
          (some (GenericContainer.wrap (.galias (.cls ("list")) [.cls ("int")])))
          none none none none [])
        (SchemaAdapter.init (some (.galias (.cls ("list")) [.cls ("int")])) none none none none [])
      = .ok true := by
  have h := C9_constructor_unwraps_wrapped_schema (.galias (.cls ("list")) [.cls ("int")])
    none none none none [] (by decide)
  exact ⟨h.1, h.2.2 (.galias (.cls ("list")) [.cls ("int")]) rfl⟩

/-- C10: `get_default_value` returns Python `None` rather than raising when
the resolved schema declares no default, and when the declared default is
itself `None` it also returns `None` - an explicit `None` default is
indistinguishable from the absence of a default at the adapter's public
interface. -/
theorem C10_default_value_none_vs_absent :
    ∀ a t a1, SchemaAdapter.type_adapter a = .ok (t, a1) →
      (pdGetDefaultValue t.taSchema = none →
        SchemaAdapter.get_default_value a = .ok (.lit .pynone, a1))
      ∧ (pdGetDefaultValue t.taSchema = some (.lit .pynone) →
        SchemaAdapter.get_default_value a = .ok (.lit .pynone, a1)) := by
  intro a t a1 h
  constructor <;> intro h2 <;> simp only [SchemaAdapter.get_default_value, h, h2]

theorem C10_default_value_witness :
    SchemaAdapter.get_default_value adapterPlainInt = .ok (.lit .pynone, aPlainIntCached)
    ∧ SchemaAdapter.get_default_value adapterNoneDefault = .ok (.lit .pynone, aNoneDefaultCached) :=
  ⟨(C10_default_value_none_vs_absent adapterPlainInt tInt aPlainIntCached rfl).1 rfl,
   (C10_default_value_none_vs_absent adapterNoneDefault tNoneDefault aNoneDefaultCached rfl).2 rfl⟩

end PyEmbed

